import Mathlib

/-!
Verification of the VoteX voting ledger (src/script.js) against its
natural-language specification.

The script keeps one global mutable aggregate `state` (users, votes,
options, userVotes, settings, user, faceEnrollments, faceDescriptors)
persisted to localStorage via `saveAll()`.  We embed that aggregate as the
structure `St` below and each mutating handler as a pure function
`St → args → St × Option VError`: the returned state is the in-memory
aggregate after the handler ran (equal to the input state whenever the
handler bailed out early), and the second component is the error the
handler surfaced as a toast / error-label, `none` on success.

JavaScript objects are embedded as association lists in insertion order
(`lookup`, `setEntry`); JS truthiness tests on strings (`!!s`,
`if (state.users[user])`) are embedded as `truthyStr` (a string is truthy
iff it is nonempty).  Biometric face descriptors (Float32Array in the
source) are embedded as rational vectors; the source compares Euclidean
distances to the constant 0.55, which for nonnegative reals is equivalent
to comparing squared distances to 0.55², the form used here.
-/

/-- JS string truthiness: `undefined`/missing and the empty string are falsy,
every other string truthy.  Mirrors `!!state.userVotes[u]`,
`if (state.users[user])`, `if (!state.user)` in src/script.js. -/
def truthyStr : Option String → Bool
  | none => false
  | some s => s ≠ ""

/-- First-match key lookup in an association list, the embedding of reading a
property of a JS object (keys are unique in the live program; the list form
keeps insertion order as JS objects do). -/
def lookup {α : Type} : List (String × α) → String → Option α
  | [], _ => none
  | (k', v) :: rest, k => if k' = k then some v else lookup rest k

/-- Property assignment `obj[k] = v` on a JS object: replaces the value at an
existing key in place, appends a new key at the end. -/
def setEntry {α : Type} : List (String × α) → String → α → List (String × α)
  | [], k, v => [(k, v)]
  | (k', v') :: rest, k, v =>
      if k' = k then (k, v) :: rest else (k', v') :: setEntry rest k v

/-- The `settings` object (src/script.js lines 28-33): `votingOpen`,
`showResultsToUsers`, `allowMultipleVotes`, `requireFaceCheck`. -/
structure Settings where
  votingOpen : Bool
  showResultsToUsers : Bool
  allowMultipleVotes : Bool
  requireFaceCheck : Bool
deriving Repr, DecidableEq

/-- `defaults.settings` from src/script.js lines 28-33, used by the import
handler when the imported document has no usable `settings` field. -/
def defaultSettings : Settings :=
  { votingOpen := true
    showResultsToUsers := true
    allowMultipleVotes := false
    requireFaceCheck := true }

/-- The global `state` aggregate of src/script.js lines 39-52 (the fields the
claims touch; rendering-only fields `sortByVotes`/`modelsLoaded` and the
admin flag are omitted as they never feed the verified operations).
`user` is the current identity: `none` embeds JS `null`/logged-out. -/
structure St where
  users : List (String × String)
  votes : List (String × Nat)
  options : List String
  userVotes : List (String × String)
  settings : Settings
  user : Option String
  biometrics : List (String × String)
  faceEnrollments : List (String × Bool)
  faceDescriptors : List (String × List ℚ)
deriving Repr, DecidableEq

/-- The errors the verified handlers surface (toast / error-label messages in
the source, named as the specification names them). -/
inductive VError where
  | Unauthenticated
  | VotingClosed
  | AlreadyVoted
  | UnknownOption
  | MalformedDocument
  | DuplicateOption
  | InvalidUsername
  | WeakPassword
  | DuplicateUsername
  | DuplicateBiometric
  | InvalidCredentials
  | NoFaceScan
deriving Repr, DecidableEq

-- ---------- Voting ----------

/-- `hasUserVoted(u)` (src/script.js lines 448-450): `!!state.userVotes[u]` -
true iff a vote record exists for `u` AND its value is a truthy (nonempty)
string. -/
def hasUserVoted (s : St) (u : String) : Bool :=
  truthyStr (lookup s.userVotes u)

/-- The string key JS uses for `state.userVotes[state.user]`: the user name
when logged in; when `state.user` is `null` (reachable if the deferred face
verification callback fires after a logout) JS coerces the key to "null". -/
def currentUserKey (s : St) : String :=
  match s.user with
  | some u => u
  | none => "null"

/-- `finalizeVote(option)` (src/script.js lines 472-482): unconditionally
increments `state.votes[option]` (creating the entry at 1 when absent) and,
when `allowMultipleVotes` is false, sets `state.userVotes[state.user] =
option`; no check is re-run here. -/
def finalizeVote (s : St) (option : String) : St :=
  { s with
    votes := setEntry s.votes option ((lookup s.votes option).getD 0 + 1)
    userVotes :=
      if s.settings.allowMultipleVotes then s.userVotes
      else setEntry s.userVotes (currentUserKey s) option }

/-- `vote(option)` (src/script.js lines 455-470): the guard cascade, then
`finalizeVote`.  When `requireFaceCheck` is set the source defers
`finalizeVote` to the face-verification success callback; this embedding is
the synchronous behaviour in which verification succeeds with the state
unchanged (the deferred-mutation gap is treated separately through
`finalizeVote` on an arbitrary state). -/
def vote (s : St) (option : String) : St × Option VError :=
  if truthyStr s.user = false then (s, some .Unauthenticated)
  else if s.settings.votingOpen = false then (s, some .VotingClosed)
  else if s.settings.allowMultipleVotes = false
          && hasUserVoted s (currentUserKey s) then (s, some .AlreadyVoted)
  else if s.options.contains option = false then (s, some .UnknownOption)
  else (finalizeVote s option, none)

-- ---------- Admin: options, reset, import ----------

/-- The `#btnAddOption` click handler (src/script.js lines 732-749): ignores
a blank (trimmed-empty) input, refuses a duplicate, otherwise pushes the
name onto `state.options` and runs `state.votes[name] = state.votes[name]
|| 0` (which keeps any pre-existing count and only creates a 0 entry when
the key is absent - for `Nat` counts `v || 0 = v`). -/
def addOption (s : St) (val : String) : St × Option VError :=
  if val = "" then (s, none)
  else if s.options.contains val then (s, some .DuplicateOption)
  else
    ({ s with
        options := s.options ++ [val]
        votes := setEntry s.votes val ((lookup s.votes val).getD 0) }, none)

/-- The per-chip remove handler (src/script.js lines 578-591): filters the
option out of `state.options`, deletes `state.votes[opt]`, and deletes every
`state.userVotes` entry whose value is the removed option. -/
def removeOption (s : St) (opt : String) : St :=
  { s with
    options := s.options.filter (fun o => o != opt)
    votes := s.votes.filter (fun p => p.1 != opt)
    userVotes := s.userVotes.filter (fun p => p.2 != opt) }

/-- The `#btnResetVotes` handler (src/script.js lines 673-682): zeroes every
existing tally entry (keys kept) and clears all vote records. -/
def resetVotes (s : St) : St :=
  { s with
    votes := s.votes.map (fun p => (p.1, 0))
    userVotes := [] }

/-- The five optional top-level fields of a parsed import document, as
the import handler projects them (`data.users`, `data.votes`,
`data.options`, `data.userVotes`, `data.settings`); a field that is absent
or unusable (falsy) is `none`. -/
structure ImportDoc where
  users : Option (List (String × String))
  votes : Option (List (String × Nat))
  options : Option (List String)
  userVotes : Option (List (String × String))
  settings : Option Settings
deriving Repr, DecidableEq

/-- The input to the import handler: either `JSON.parse` throws (malformed
text) or it yields a document whose five fields are projected as in
`ImportDoc`. -/
inductive ImportInput where
  | malformed
  | parsed (d : ImportDoc)
deriving Repr, DecidableEq

/-- The `#fileImport` change handler (src/script.js lines 706-730): on a
parse failure nothing is touched and "Invalid JSON file." is surfaced; on a
parsed document the five fields are wholesale-replaced, each falling back to
its default (`{}`/`[]`/`defaults.settings`).  The remaining state fields
(biometrics, face enrollments/descriptors, session) are not touched. -/
def importSnapshot (s : St) (inp : ImportInput) : St × Option VError :=
  match inp with
  | .malformed => (s, some .MalformedDocument)
  | .parsed d =>
      ({ s with
          users := d.users.getD []
          votes := d.votes.getD []
          options := d.options.getD []
          userVotes := d.userVotes.getD []
          settings := d.settings.getD defaultSettings }, none)

-- ---------- Registration / authentication ----------

/-- The face-duplicate threshold of `startRegistrationScan`
(src/script.js line 157): 0.55. -/
def threshold : ℚ := 55 / 100

/-- Squared Euclidean distance between two descriptor vectors
(`faceapi.euclideanDistance` squared; comparing it with `threshold²` is
equivalent to comparing the distance with `threshold`, both being
nonnegative). -/
def distSq (a b : List ℚ) : ℚ :=
  ((a.zip b).map (fun p => (p.1 - p.2) * (p.1 - p.2))).sum

/-- The uniqueness check of `startRegistrationScan` (src/script.js lines
156-161): some already-enrolled descriptor lies at Euclidean distance below
0.55 from the scanned one. -/
def isDuplicateDescriptor (s : St) (descr : List ℚ) : Bool :=
  s.faceDescriptors.any (fun p => decide (distSq descr p.2 < threshold * threshold))

/-- `startRegistrationScan` (src/script.js lines 149-174), reduced to its
decision: a scan whose descriptor duplicates an enrolled identity is
rejected ("Identity already exists in VoteX.") and no state is mutated;
otherwise the descriptor is held for `register`. -/
def startRegistrationScan (s : St) (descr : List ℚ) : Option VError :=
  if isDuplicateDescriptor s descr then some .DuplicateBiometric else none

/-- The username pattern `/^[A-Za-z0-9_]+$/` of src/script.js line 187. -/
def usernamePatternOk (u : String) : Bool :=
  u.length > 0 && u.toList.all (fun c => c.isAlphanum || c == '_')

/-- `register()` (src/script.js lines 176-212): requires a held face scan,
then checks username length, password length, username pattern and
`if (state.users[user])` (a truthiness test on the stored password) in that
order, each failure returning before any mutation; on success stores the
password as given, marks the face enrollment, stores the descriptor and logs
the new user in. -/
def register (s : St) (user pass : String) (scanned : Option (List ℚ)) :
    St × Option VError :=
  match scanned with
  | none => (s, some .NoFaceScan)
  | some descr =>
      if user.length < 3 then (s, some .InvalidUsername)
      else if pass.length < 6 then (s, some .WeakPassword)
      else if usernamePatternOk user = false then (s, some .InvalidUsername)
      else if truthyStr (lookup s.users user) then (s, some .DuplicateUsername)
      else
        ({ s with
            users := setEntry s.users user pass
            faceEnrollments := setEntry s.faceEnrollments user true
            faceDescriptors := setEntry s.faceDescriptors user descr
            user := some user }, none)

/-- `login()` (src/script.js lines 214-229): succeeds iff
`state.users[user] && state.users[user] === pass` - the stored password must
be truthy (nonempty) and exactly equal to the supplied one; otherwise
"Invalid username or password." and no mutation. -/
def login (s : St) (user pass : String) : St × Option VError :=
  match lookup s.users user with
  | some stored =>
      if stored ≠ "" && stored == pass then ({ s with user := some user }, none)
      else (s, some .InvalidCredentials)
  | none => (s, some .InvalidCredentials)

-- ---------- Traces of operations ----------

/-- An admin/user operation for trace-level claims: a vote attempt, an
option addition/removal, or a vote reset. -/
inductive AdminOp where
  | castVote (opt : String)
  | addOpt (name : String)
  | removeOpt (name : String)
  | reset
deriving Repr, DecidableEq

/-- Run one operation (the state component of the handler). -/
def applyOp (s : St) : AdminOp → St
  | .castVote opt => (vote s opt).1
  | .addOpt name => (addOption s name).1
  | .removeOpt name => removeOption s name
  | .reset => resetVotes s

/-- Run a list of operations left to right. -/
def applyOps (s : St) : List AdminOp → St
  | [] => s
  | op :: rest => applyOps (applyOp s op) rest

/-- 1 when the operation is a `castVote` that succeeds from state `s`. -/
def stepSuccess (s : St) : AdminOp → Nat
  | .castVote opt => if (vote s opt).2 = none then 1 else 0
  | _ => 0

/-- Number of successful `castVote` calls along a trace. -/
def successCount (s : St) : List AdminOp → Nat
  | [] => 0
  | op :: rest => stepSuccess s op + successCount (applyOp s op) rest

/-- Sum of all tally values. -/
def tallySum (s : St) : Nat :=
  (s.votes.map (fun p => p.2)).sum

/-- The tally counts an operation discards from state `s`: a
`removeOption name` discards the counts currently stored under `name`. -/
def stepDiscard (s : St) : AdminOp → Nat
  | .removeOpt name =>
      ((s.votes.filter (fun p => p.1 == name)).map (fun p => p.2)).sum
  | _ => 0

/-- Tally counts discarded along a trace by option removals. -/
def discardedCount (s : St) : List AdminOp → Nat
  | [] => 0
  | op :: rest => stepDiscard s op + discardedCount (applyOp s op) rest

/-- An option-management operation (for the option/tally invariant claim). -/
inductive OptionOp where
  | add (name : String)
  | remove (name : String)
deriving Repr, DecidableEq

/-- Run one option-management operation. -/
def applyOptionOp (s : St) : OptionOp → St
  | .add name => (addOption s name).1
  | .remove name => removeOption s name

/-- Run a list of option-management operations left to right. -/
def applyOptionOps (s : St) : List OptionOp → St
  | [] => s
  | op :: rest => applyOptionOps (applyOptionOp s op) rest

/-- The option/tally invariant, decidably: every tally key is a current
option and every current option has a tally entry (i.e. the set of tally
keys equals the current option set). -/
def tallyOptionInv (s : St) : Bool :=
  s.votes.all (fun p => s.options.contains p.1)
    && s.options.all (fun o => (lookup s.votes o).isSome)

-- ---------- Concrete states used by witnesses and counterexamples ----------

/-- A base state: everything empty, default settings, nobody logged in. -/
def baseSt : St :=
  { users := []
    votes := []
    options := []
    userVotes := []
    settings := defaultSettings
    user := none
    biometrics := []
    faceEnrollments := []
    faceDescriptors := [] }

/-- A live election: user "u" logged in, voting open, single-vote policy,
two options with zero tallies, no vote records. -/
def demoSt : St :=
  { users := [("u", "secret1")]
    votes := [("Option A", 0), ("Option B", 0)]
    options := ["Option A", "Option B"]
    userVotes := []
    settings := { votingOpen := true, showResultsToUsers := true,
                  allowMultipleVotes := false, requireFaceCheck := false }
    user := some "u"
    biometrics := []
    faceEnrollments := []
    faceDescriptors := [] }

/-- `demoSt` with a vote record for "u" whose value is the empty string (as
an imported `userVotes` document can produce): the record exists, but JS
truthiness makes `hasUserVoted` miss it. -/
def emptyRecordSt : St :=
  { demoSt with userVotes := [("u", "")] }

/-- `demoSt` with the empty string as a current (imported) option and no
vote record yet. -/
def emptyOptionSt : St :=
  { demoSt with options := [""], votes := [("", 0)] }

/-- A state whose identity registry holds "bob" with an empty stored
password (producible by importing `users: {"bob": ""}`). -/
def emptyPwSt : St :=
  { baseSt with users := [("bob", "")] }

/-- A state with a leftover tally entry for "X" (count 5) while "X" is not a
current option (producible by importing `votes: {"X": 5}, options: []`). -/
def orphanTallySt : St :=
  { baseSt with votes := [("X", 5)] }

/-- A state with one enrolled face descriptor, the origin vector. -/
def enrolledSt : St :=
  { baseSt with faceDescriptors := [("alice", [0])] }

/-- One successful vote for "Option A" followed by the removal of
"Option A". -/
def demoOps : List AdminOp :=
  [AdminOp.castVote "Option A", AdminOp.removeOpt "Option A"]

/-- Add an option, vote-unrelated removals and re-additions. -/
def demoOptionOps : List OptionOp :=
  [OptionOp.add "Option C", OptionOp.remove "Option A", OptionOp.add "Option A"]

-- ---------- Association-list lemmas ----------

theorem lookup_cons {α : Type} (k' : String) (v' : α) (tl : List (String × α)) (k : String) :
    lookup ((k', v') :: tl) k = if k' = k then some v' else lookup tl k := rfl

theorem setEntry_cons {α : Type} (k' : String) (v' : α) (tl : List (String × α))
    (k : String) (v : α) :
    setEntry ((k', v') :: tl) k v =
      if k' = k then (k, v) :: tl else (k', v') :: setEntry tl k v := rfl

theorem lookup_setEntry_self {α : Type} (m : List (String × α)) (k : String) (v : α) :
    lookup (setEntry m k v) k = some v := by
  induction m with
  | nil => simp [setEntry, lookup]
  | cons hd tl ih =>
      obtain ⟨k', v'⟩ := hd
      by_cases h : k' = k
      · simp [setEntry_cons, h, lookup_cons]
      · simp [setEntry_cons, h, lookup_cons, ih]

theorem lookup_setEntry_ne {α : Type} (m : List (String × α)) (k k' : String) (v : α)
    (h : k' ≠ k) : lookup (setEntry m k v) k' = lookup m k' := by
  have hk : k ≠ k' := Ne.symm h
  induction m with
  | nil => simp [setEntry, lookup, hk]
  | cons hd tl ih =>
      obtain ⟨k0, v0⟩ := hd
      by_cases h0 : k0 = k
      · subst h0
        simp [setEntry_cons, lookup_cons, hk]
      · by_cases h1 : k0 = k'
        · simp [setEntry_cons, h0, lookup_cons, h1, h]
        · simp [setEntry_cons, h0, lookup_cons, h1, ih]

theorem lookup_isSome_iff_mem_keys {α : Type} (m : List (String × α)) (k : String) :
    (lookup m k).isSome = true ↔ k ∈ m.map Prod.fst := by
  induction m with
  | nil => simp [lookup]
  | cons hd tl ih =>
      obtain ⟨k', v'⟩ := hd
      by_cases h : k' = k
      · simp [lookup_cons, h]
      · simp [lookup_cons, h, ih, Ne.symm h]

theorem lookup_eq_none_of_not_mem_keys {α : Type} (m : List (String × α)) (k : String)
    (h : k ∉ m.map Prod.fst) : lookup m k = none := by
  cases hl : lookup m k with
  | none => rfl
  | some v =>
      exact absurd ((lookup_isSome_iff_mem_keys m k).mp (by simp [hl])) h

theorem lookup_filter_fst_self {α : Type} (m : List (String × α)) (n : String) :
    lookup (m.filter (fun p => p.1 != n)) n = none := by
  apply lookup_eq_none_of_not_mem_keys
  simp

theorem lookup_filter_fst_ne {α : Type} (m : List (String × α)) (n k : String)
    (h : k ≠ n) : lookup (m.filter (fun p => p.1 != n)) k = lookup m k := by
  induction m with
  | nil => simp [lookup]
  | cons hd tl ih =>
      obtain ⟨k', v'⟩ := hd
      by_cases h' : k' = n
      · subst h'
        simp [List.filter_cons, lookup_cons, Ne.symm h, ih]
      · by_cases h2 : k' = k
        · simp [List.filter_cons, h', lookup_cons, h2, h]
        · simp [List.filter_cons, h', lookup_cons, h2, ih]

theorem mem_keys_of_mem_keys_filter {α : Type} {m : List (String × α)}
    {f : String × α → Bool} {k : String}
    (h : k ∈ (m.filter f).map Prod.fst) : k ∈ m.map Prod.fst := by
  simp only [List.mem_map] at h ⊢
  obtain ⟨p, hp, rfl⟩ := h
  exact ⟨p, (List.mem_filter.mp hp).1, rfl⟩

theorem lookup_filter_snd_of_eq (m : List (String × String)) (n u : String)
    (hnd : (m.map Prod.fst).Nodup) (h : lookup m u = some n) :
    lookup (m.filter (fun p => p.2 != n)) u = none := by
  induction m with
  | nil => simp [lookup] at h
  | cons hd tl ih =>
      obtain ⟨k', v'⟩ := hd
      simp only [List.map_cons, List.nodup_cons] at hnd
      by_cases hk : k' = u
      · subst hk
        rw [lookup_cons, if_pos rfl] at h
        obtain rfl : v' = n := by exact Option.some.inj h
        have hfc : List.filter (fun p => p.2 != v') ((k', v') :: tl)
            = List.filter (fun p => p.2 != v') tl := by
          simp [List.filter_cons]
        rw [hfc]
        apply lookup_eq_none_of_not_mem_keys
        intro hmem
        exact hnd.1 (mem_keys_of_mem_keys_filter hmem)
      · rw [lookup_cons, if_neg hk] at h
        by_cases hv : v' = n
        · have hfc : List.filter (fun p => p.2 != n) ((k', v') :: tl)
              = List.filter (fun p => p.2 != n) tl := by
            simp [List.filter_cons, hv]
          rw [hfc]
          exact ih hnd.2 h
        · rw [List.filter_cons, if_pos (by simpa using hv), lookup_cons, if_neg hk]
          exact ih hnd.2 h

theorem lookup_filter_snd_of_ne (m : List (String × String)) (n u v : String)
    (hv : v ≠ n) (h : lookup m u = some v) :
    lookup (m.filter (fun p => p.2 != n)) u = some v := by
  induction m with
  | nil => simp [lookup] at h
  | cons hd tl ih =>
      obtain ⟨k', v'⟩ := hd
      by_cases hk : k' = u
      · subst hk
        rw [lookup_cons, if_pos rfl] at h
        obtain rfl : v' = v := by exact Option.some.inj h
        rw [List.filter_cons, if_pos (by simpa using hv), lookup_cons, if_pos rfl]
      · rw [lookup_cons, if_neg hk] at h
        by_cases hv' : v' = n
        · have hfc : List.filter (fun p => p.2 != n) ((k', v') :: tl)
              = List.filter (fun p => p.2 != n) tl := by
            simp [List.filter_cons, hv']
          rw [hfc]
          exact ih h
        · rw [List.filter_cons, if_pos (by simpa using hv'), lookup_cons, if_neg hk]
          exact ih h

-- ---------- Tally-sum lemmas ----------

theorem sum_setEntry_getD_add (m : List (String × Nat)) (k : String) (c : Nat) :
    ((setEntry m k ((lookup m k).getD 0 + c)).map (fun p => p.2)).sum
      = (m.map (fun p => p.2)).sum + c := by
  induction m with
  | nil => simp [setEntry, lookup]
  | cons hd tl ih =>
      obtain ⟨k', v'⟩ := hd
      by_cases h : k' = k
      · simp [setEntry_cons, h, lookup_cons]
        omega
      · simp only [lookup_cons, if_neg h, setEntry_cons, if_neg h, List.map_cons,
          List.sum_cons] at ih ⊢
        omega

theorem sum_filter_key (m : List (String × Nat)) (n : String) :
    ((m.filter (fun p => p.1 != n)).map (fun p => p.2)).sum
      + ((m.filter (fun p => p.1 == n)).map (fun p => p.2)).sum
      = (m.map (fun p => p.2)).sum := by
  induction m with
  | nil => simp
  | cons hd tl ih =>
      obtain ⟨k', v'⟩ := hd
      by_cases h : k' = n
      · subst h
        simp only [List.filter_cons, bne_self_eq_false, beq_self_eq_true,
          Bool.false_eq_true, if_false, if_true]
        simp only [List.map_cons, List.sum_cons]
        omega
      · have hb : (k' != n) = true := by simpa using h
        have hq : (k' == n) = false := by simpa using h
        simp only [List.filter_cons, hb, hq, Bool.false_eq_true, if_false, if_true]
        simp only [List.map_cons, List.sum_cons]
        omega

-- ---------- Inversion lemmas for the vote cascade ----------

theorem vote_ok_inversion (s : St) (opt : String) (s' : St)
    (h : vote s opt = (s', none)) :
    truthyStr s.user = true ∧ s.settings.votingOpen = true
      ∧ (s.settings.allowMultipleVotes = true
          ∨ hasUserVoted s (currentUserKey s) = false)
      ∧ s.options.contains opt = true ∧ s' = finalizeVote s opt := by
  unfold vote at h
  by_cases h1 : truthyStr s.user = false
  · rw [if_pos h1] at h
    simp at h
  · rw [if_neg h1] at h
    by_cases h2 : s.settings.votingOpen = false
    · rw [if_pos h2] at h
      simp at h
    · rw [if_neg h2] at h
      by_cases h3 : (s.settings.allowMultipleVotes = false
          && hasUserVoted s (currentUserKey s)) = true
      · rw [if_pos h3] at h
        simp at h
      · rw [if_neg h3] at h
        by_cases h4 : s.options.contains opt = false
        · rw [if_pos h4] at h
          simp at h
        · rw [if_neg h4] at h
          have h3' : s.settings.allowMultipleVotes = true
              ∨ hasUserVoted s (currentUserKey s) = false := by
            cases ham : s.settings.allowMultipleVotes with
            | true => exact Or.inl rfl
            | false =>
                cases hv : hasUserVoted s (currentUserKey s) with
                | false => exact Or.inr rfl
                | true => exact absurd (by simp [ham, hv]) h3
          exact ⟨by simpa using h1, by simpa using h2, h3',
            by simpa using h4, (congrArg Prod.fst h).symm⟩

theorem vote_failed_state (s : St) (opt : String) (e : VError)
    (h : (vote s opt).2 = some e) : (vote s opt).1 = s := by
  unfold vote at h ⊢
  by_cases h1 : truthyStr s.user = false
  · rw [if_pos h1]
  · rw [if_neg h1] at h ⊢
    by_cases h2 : s.settings.votingOpen = false
    · rw [if_pos h2]
    · rw [if_neg h2] at h ⊢
      by_cases h3 : (s.settings.allowMultipleVotes = false
          && hasUserVoted s (currentUserKey s)) = true
      · rw [if_pos h3]
      · rw [if_neg h3] at h ⊢
        by_cases h4 : s.options.contains opt = false
        · rw [if_pos h4]
        · rw [if_neg h4] at h
          simp at h

-- ---------- Option/tally invariant machinery ----------

theorem tallyOptionInv_iff (s : St) :
    tallyOptionInv s = true
      ↔ ∀ k, (lookup s.votes k).isSome = true ↔ k ∈ s.options := by
  unfold tallyOptionInv
  rw [Bool.and_eq_true, List.all_eq_true, List.all_eq_true]
  constructor
  · rintro ⟨hl, hr⟩ k
    constructor
    · intro hk
      rcases List.mem_map.mp ((lookup_isSome_iff_mem_keys s.votes k).mp hk)
        with ⟨p, hp, rfl⟩
      exact List.elem_iff.mp (hl p hp)
    · intro hk
      exact hr k hk
  · intro h
    refine ⟨fun p hp => ?_, fun o ho => (h o).mpr ho⟩
    apply List.elem_iff.mpr
    apply (h p.1).mp
    apply (lookup_isSome_iff_mem_keys s.votes p.1).mpr
    exact List.mem_map.mpr ⟨p, hp, rfl⟩

theorem applyOptionOp_preserves_inv (s : St) (op : OptionOp)
    (hinv : tallyOptionInv s = true) : tallyOptionInv (applyOptionOp s op) = true := by
  rw [tallyOptionInv_iff] at hinv ⊢
  cases op with
  | add name =>
      show ∀ k, (lookup (addOption s name).1.votes k).isSome = true
        ↔ k ∈ (addOption s name).1.options
      unfold addOption
      by_cases h0 : name = ""
      · rw [if_pos h0]
        exact hinv
      · rw [if_neg h0]
        by_cases h1 : s.options.contains name
        · rw [if_pos h1]
          exact hinv
        · rw [if_neg h1]
          intro k
          by_cases hk : k = name
          · subst hk
            simp [lookup_setEntry_self]
          · rw [lookup_setEntry_ne s.votes name k _ hk]
            simp only [List.mem_append, List.mem_singleton]
            rw [hinv k]
            simp [hk]
  | remove name =>
      show ∀ k, (lookup (removeOption s name).votes k).isSome = true
        ↔ k ∈ (removeOption s name).options
      intro k
      show (lookup (s.votes.filter (fun p => p.1 != name)) k).isSome = true
        ↔ k ∈ s.options.filter (fun o => o != name)
      by_cases hk : k = name
      · subst hk
        rw [lookup_filter_fst_self]
        simp
      · rw [lookup_filter_fst_ne s.votes name k hk]
        rw [List.mem_filter]
        rw [hinv k]
        simp [hk]

theorem applyOptionOps_preserves_inv (ops : List OptionOp) :
    ∀ s : St, tallyOptionInv s = true → tallyOptionInv (applyOptionOps s ops) = true := by
  induction ops with
  | nil => intro s h; exact h
  | cons op rest ih =>
      intro s h
      exact ih (applyOptionOp s op) (applyOptionOp_preserves_inv s op h)

-- ---------- Trace accounting machinery ----------

theorem tallySum_applyOp (s : St) (op : AdminOp) (hop : op ≠ AdminOp.reset) :
    tallySum (applyOp s op) + stepDiscard s op
      = tallySum s + stepSuccess s op := by
  cases op with
  | castVote opt =>
      by_cases hv : (vote s opt).2 = none
      · have h : vote s opt = ((vote s opt).1, none) := by rw [← hv]
        obtain ⟨-, -, -, -, hfin⟩ := vote_ok_inversion s opt (vote s opt).1 h
        show tallySum (vote s opt).1 + 0 = tallySum s + if (vote s opt).2 = none then 1 else 0
        rw [hfin, if_pos hv]
        show ((setEntry s.votes opt ((lookup s.votes opt).getD 0 + 1)).map
          (fun p => p.2)).sum + 0 = tallySum s + 1
        rw [sum_setEntry_getD_add]
        rfl
      · cases he : (vote s opt).2 with
        | none => exact absurd he hv
        | some e =>
            show tallySum (vote s opt).1 + 0
              = tallySum s + if (vote s opt).2 = none then 1 else 0
            rw [vote_failed_state s opt e he, if_neg hv]
  | addOpt name =>
      show tallySum (addOption s name).1 + 0 = tallySum s + 0
      unfold addOption
      by_cases h0 : name = ""
      · rw [if_pos h0]
      · rw [if_neg h0]
        by_cases h1 : s.options.contains name
        · rw [if_pos h1]
        · rw [if_neg h1]
          show ((setEntry s.votes name ((lookup s.votes name).getD 0)).map
            (fun p => p.2)).sum + 0 = tallySum s + 0
          have := sum_setEntry_getD_add s.votes name 0
          simpa using this
  | removeOpt name =>
      show tallySum (removeOption s name)
          + ((s.votes.filter (fun p => p.1 == name)).map (fun p => p.2)).sum
        = tallySum s + 0
      show ((s.votes.filter (fun p => p.1 != name)).map (fun p => p.2)).sum
          + ((s.votes.filter (fun p => p.1 == name)).map (fun p => p.2)).sum
        = tallySum s + 0
      rw [sum_filter_key]
      rfl
  | reset => exact absurd rfl hop

theorem tally_sum_trace (ops : List AdminOp) :
    ∀ s : St, AdminOp.reset ∉ ops →
      tallySum (applyOps s ops) + discardedCount s ops
        = tallySum s + successCount s ops := by
  induction ops with
  | nil =>
      intro s _
      simp [applyOps, discardedCount, successCount]
  | cons op rest ih =>
      intro s hnr
      have hop : op ≠ AdminOp.reset := by
        intro h
        exact hnr (h ▸ List.mem_cons_self op rest)
      have hrest : AdminOp.reset ∉ rest := fun h => hnr (List.mem_cons_of_mem op h)
      have hstep := tallySum_applyOp s op hop
      have ihs := ih (applyOp s op) hrest
      show tallySum (applyOps (applyOp s op) rest) + discardedCount s (op :: rest)
        = tallySum s + successCount s (op :: rest)
      rw [show discardedCount s (op :: rest)
          = stepDiscard s op + discardedCount (applyOp s op) rest from rfl]
      rw [show successCount s (op :: rest)
          = stepSuccess s op + successCount (applyOp s op) rest from rfl]
      omega

-- ---------- Claim theorems ----------

/-- C1 counterexample: in a state (importable through the snapshot handler)
where a VoteRecord entry for the current identity "u" exists but holds the
empty string, `allowMultipleVotes` is false and voting is open, `vote` does
not fail with AlreadyVoted - it succeeds - because `hasUserVoted` tests the
record by JS truthiness, refuting the claim that castVote fails with
AlreadyVoted whenever a VoteRecord exists for the identity. -/
theorem vote_alreadyVoted_cex :
    (lookup emptyRecordSt.userVotes "u").isSome = true
    ∧ emptyRecordSt.user = some "u"
    ∧ emptyRecordSt.settings.allowMultipleVotes = false
    ∧ emptyRecordSt.settings.votingOpen = true
    ∧ (vote emptyRecordSt "Option A").2 ≠ some VError.AlreadyVoted
    ∧ (vote emptyRecordSt "Option A").2 = none := by decide

/-- C1 (amended): castVote performs its checks in the specified order and
fails with the specified error at the first violated check - Unauthenticated
when no current identity is set (or it is the falsy empty string),
VotingClosed when votingOpen is false, AlreadyVoted when allowMultipleVotes
is false and a VoteRecord with a truthy (nonempty) value exists for the
identity, UnknownOption when the option is not in the current Option set -
and when every check passes it increments Tally[option] by one and, when
allowMultipleVotes is false, sets VoteRecord[identity] = option. -/
theorem vote_check_order (s : St) (opt : String) :
    (truthyStr s.user = false → vote s opt = (s, some VError.Unauthenticated))
    ∧ (truthyStr s.user = true → s.settings.votingOpen = false →
        vote s opt = (s, some VError.VotingClosed))
    ∧ (truthyStr s.user = true → s.settings.votingOpen = true →
        s.settings.allowMultipleVotes = false →
        hasUserVoted s (currentUserKey s) = true →
        vote s opt = (s, some VError.AlreadyVoted))
    ∧ (truthyStr s.user = true → s.settings.votingOpen = true →
        (s.settings.allowMultipleVotes = true
          ∨ hasUserVoted s (currentUserKey s) = false) →
        s.options.contains opt = false →
        vote s opt = (s, some VError.UnknownOption))
    ∧ (truthyStr s.user = true → s.settings.votingOpen = true →
        (s.settings.allowMultipleVotes = true
          ∨ hasUserVoted s (currentUserKey s) = false) →
        s.options.contains opt = true →
        vote s opt = (finalizeVote s opt, none)
        ∧ lookup (finalizeVote s opt).votes opt
            = some ((lookup s.votes opt).getD 0 + 1)
        ∧ (s.settings.allowMultipleVotes = false →
            lookup (finalizeVote s opt).userVotes (currentUserKey s) = some opt)) := by
  have hc3 : ∀ _ : s.settings.allowMultipleVotes = true
        ∨ hasUserVoted s (currentUserKey s) = false,
      ¬((s.settings.allowMultipleVotes = false
          && hasUserVoted s (currentUserKey s)) = true) := by
    rintro (h | h) <;> simp [h]
  refine ⟨?_, ?_, ?_, ?_, ?_⟩
  · intro h1
    unfold vote
    rw [if_pos h1]
  · intro h1 h2
    unfold vote
    rw [if_neg (by simp [h1]), if_pos h2]
  · intro h1 h2 h3 h4
    unfold vote
    rw [if_neg (by simp [h1]), if_neg (by simp [h2]), if_pos (by simp [h3, h4])]
  · intro h1 h2 h3 h4
    unfold vote
    rw [if_neg (by simp [h1]), if_neg (by simp [h2]), if_neg (hc3 h3), if_pos h4]
  · intro h1 h2 h3 h4
    refine ⟨?_, lookup_setEntry_self _ _ _, ?_⟩
    · unfold vote
      rw [if_neg (by simp [h1]), if_neg (by simp [h2]), if_neg (hc3 h3),
        if_neg (by rw [h4]; simp)]
    · intro ham
      show lookup (if s.settings.allowMultipleVotes then s.userVotes
          else setEntry s.userVotes (currentUserKey s) opt) (currentUserKey s)
        = some opt
      rw [ham]
      simp only [Bool.false_eq_true, if_false]
      exact lookup_setEntry_self _ _ _

/-- C10: finalizeVote unconditionally increments votes[option] by one
(creating the entry at 1 when absent) and, when allowMultipleVotes is false,
sets userVotes[currentUser] = option; it re-checks nothing - the tally
equation holds for every state, in particular when the option is not in the
current Option set (as can happen when requireVerification defers the
mutation past an admin edit), leaving a tally entry for a non-option. -/
theorem finalize_vote_unconditional (s : St) (opt : String) :
    (finalizeVote s opt).votes
        = setEntry s.votes opt ((lookup s.votes opt).getD 0 + 1)
    ∧ lookup (finalizeVote s opt).votes opt
        = some ((lookup s.votes opt).getD 0 + 1)
    ∧ (lookup s.votes opt = none → lookup (finalizeVote s opt).votes opt = some 1)
    ∧ (s.settings.allowMultipleVotes = false →
        (finalizeVote s opt).userVotes = setEntry s.userVotes (currentUserKey s) opt
        ∧ lookup (finalizeVote s opt).userVotes (currentUserKey s) = some opt)
    ∧ (s.settings.allowMultipleVotes = true →
        (finalizeVote s opt).userVotes = s.userVotes)
    ∧ (finalizeVote s opt).options = s.options
    ∧ (finalizeVote s opt).settings = s.settings
    ∧ (finalizeVote s opt).user = s.user
    ∧ (s.options.contains opt = false →
        (finalizeVote s opt).options.contains opt = false) := by
  refine ⟨rfl, lookup_setEntry_self _ _ _, ?_, ?_, ?_, rfl, rfl, rfl, fun h => h⟩
  · intro h
    show lookup (setEntry s.votes opt ((lookup s.votes opt).getD 0 + 1)) opt = some 1
    rw [h]
    simpa using lookup_setEntry_self s.votes opt ((none : Option Nat).getD 0 + 1)
  · intro ham
    constructor
    · show (if s.settings.allowMultipleVotes then s.userVotes
          else setEntry s.userVotes (currentUserKey s) opt)
        = setEntry s.userVotes (currentUserKey s) opt
      rw [ham]
      simp only [Bool.false_eq_true, if_false]
    · show lookup (if s.settings.allowMultipleVotes then s.userVotes
          else setEntry s.userVotes (currentUserKey s) opt) (currentUserKey s)
        = some opt
      rw [ham]
      simp only [Bool.false_eq_true, if_false]
      exact lookup_setEntry_self _ _ _
  · intro ham
    show (if s.settings.allowMultipleVotes then s.userVotes
        else setEntry s.userVotes (currentUserKey s) opt) = s.userVotes
    rw [ham]
    simp

/-- C5: removeOption(name) removes name from the Option set, deletes its
Tally entry, deletes every VoteRecord entry whose value equals name (so the
affected identity is NotVoted again and, with voting open and a valid
option, a fresh vote by them succeeds), and leaves other VoteRecord entries,
other Tally entries, the registry, settings and session unchanged. -/
theorem remove_option_cascade (s : St) (name : String) :
    (removeOption s name).options = s.options.filter (fun o => o != name)
    ∧ (removeOption s name).options.contains name = false
    ∧ lookup (removeOption s name).votes name = none
    ∧ (∀ k, k ≠ name → lookup (removeOption s name).votes k = lookup s.votes k)
    ∧ ((s.userVotes.map Prod.fst).Nodup →
        ∀ u, lookup s.userVotes u = some name →
          lookup (removeOption s name).userVotes u = none
          ∧ hasUserVoted (removeOption s name) u = false)
    ∧ (∀ u v, v ≠ name → lookup s.userVotes u = some v →
        lookup (removeOption s name).userVotes u = some v)
    ∧ (removeOption s name).users = s.users
    ∧ (removeOption s name).settings = s.settings
    ∧ (removeOption s name).user = s.user
    ∧ (∀ u opt2, s.user = some u → truthyStr s.user = true →
        s.settings.votingOpen = true →
        (s.userVotes.map Prod.fst).Nodup →
        lookup s.userVotes u = some name →
        (removeOption s name).options.contains opt2 = true →
        vote (removeOption s name) opt2
          = (finalizeVote (removeOption s name) opt2, none)) := by
  refine ⟨rfl, ?_, lookup_filter_fst_self _ _, ?_, ?_, ?_, rfl, rfl, rfl, ?_⟩
  · cases hcb : (removeOption s name).options.contains name with
    | false => rfl
    | true =>
        have hmem := List.elem_iff.mp hcb
        simp [removeOption, List.mem_filter] at hmem
  · intro k hk
    exact lookup_filter_fst_ne s.votes name k hk
  · intro hnd u hrec
    have h0 := lookup_filter_snd_of_eq s.userVotes name u hnd hrec
    exact ⟨h0, by simp [hasUserVoted, removeOption] at h0 ⊢; simp [h0, truthyStr]⟩
  · intro u v hv hrec
    exact lookup_filter_snd_of_ne s.userVotes name u v hv hrec
  · intro u opt2 hu htr ho hnd hrec hopt2
    have hlf : lookup (removeOption s name).userVotes u = none :=
      lookup_filter_snd_of_eq s.userVotes name u hnd hrec
    have hkey : currentUserKey (removeOption s name) = u := by
      simp [currentUserKey, removeOption, hu]
    have hvfalse : hasUserVoted (removeOption s name)
        (currentUserKey (removeOption s name)) = false := by
      rw [hkey]
      simp only [hasUserVoted]
      rw [show (removeOption s name).userVotes
        = s.userVotes.filter (fun p => p.2 != name) from rfl] at hlf ⊢
      rw [hlf]
      rfl
    unfold vote
    rw [if_neg (by simp [removeOption, htr]),
      if_neg (by simp [removeOption, ho]),
      if_neg (by simp [hvfalse]),
      if_neg (by rw [hopt2]; simp)]

/-- C6: importSnapshot wholesale-replaces the identity registry, tally,
option set, vote records and policy with the document's contents (each
missing field replaced by its default), leaves the remaining state fields
untouched, and on a malformed (unparseable) document fails with
MalformedDocument leaving the entire prior state exactly unchanged. -/
theorem import_snapshot_replace (s : St) (d : ImportDoc) :
    importSnapshot s ImportInput.malformed = (s, some VError.MalformedDocument)
    ∧ (importSnapshot s (ImportInput.parsed d)).2 = none
    ∧ (importSnapshot s (ImportInput.parsed d)).1.users = d.users.getD []
    ∧ (importSnapshot s (ImportInput.parsed d)).1.votes = d.votes.getD []
    ∧ (importSnapshot s (ImportInput.parsed d)).1.options = d.options.getD []
    ∧ (importSnapshot s (ImportInput.parsed d)).1.userVotes = d.userVotes.getD []
    ∧ (importSnapshot s (ImportInput.parsed d)).1.settings
        = d.settings.getD defaultSettings
    ∧ (importSnapshot s (ImportInput.parsed d)).1.biometrics = s.biometrics
    ∧ (importSnapshot s (ImportInput.parsed d)).1.faceEnrollments = s.faceEnrollments
    ∧ (importSnapshot s (ImportInput.parsed d)).1.faceDescriptors = s.faceDescriptors
    ∧ (importSnapshot s (ImportInput.parsed d)).1.user = s.user :=
  ⟨rfl, rfl, rfl, rfl, rfl, rfl, rfl, rfl, rfl, rfl, rfl⟩

/-- C2 counterexample: with the empty string as a current option (importable
through the snapshot handler) and allowMultipleVotes=false, a first castVote
for "" succeeds, yet the repeat castVote by the same identity succeeds again
instead of failing with AlreadyVoted, and the tally for "" is double-counted
to 2 - refuting idempotence as claimed for "any option". -/
theorem vote_idempotent_cex :
    emptyOptionSt.settings.allowMultipleVotes = false
    ∧ (vote emptyOptionSt "").2 = none
    ∧ (vote (vote emptyOptionSt "").1 "").2 ≠ some VError.AlreadyVoted
    ∧ (vote (vote emptyOptionSt "").1 "").2 = none
    ∧ lookup (vote (vote emptyOptionSt "").1 "").1.votes "" = some 2 := by decide

/-- C2 (amended): under allowMultipleVotes=false, after one successful
castVote for a nonempty option, an immediately repeated castVote by the same
identity - with any option whatsoever - fails with AlreadyVoted and returns
the state unchanged, so the tally is never double-counted (a vote for the
empty-string option, importable only through a snapshot, escapes the
record's truthiness test and is excluded). -/
theorem vote_idempotent (s : St) (opt : String) (s' : St)
    (hm : s.settings.allowMultipleVotes = false)
    (hne : opt ≠ "")
    (h : vote s opt = (s', none)) :
    ∀ opt2, vote s' opt2 = (s', some VError.AlreadyVoted)
      ∧ (vote s' opt2).1.votes = s'.votes := by
  obtain ⟨hu, ho, -, -, rfl⟩ := vote_ok_inversion s opt s' h
  intro opt2
  have huser : (finalizeVote s opt).user = s.user := rfl
  have hset : (finalizeVote s opt).settings = s.settings := rfl
  have hkey : currentUserKey (finalizeVote s opt) = currentUserKey s := rfl
  have huv : (finalizeVote s opt).userVotes
      = setEntry s.userVotes (currentUserKey s) opt := by
    show (if s.settings.allowMultipleVotes then s.userVotes
        else setEntry s.userVotes (currentUserKey s) opt) = _
    rw [hm]
    simp
  have hvoted : hasUserVoted (finalizeVote s opt)
      (currentUserKey (finalizeVote s opt)) = true := by
    simp only [hasUserVoted, hkey, huv, lookup_setEntry_self]
    simp [truthyStr, hne]
  have hmain : vote (finalizeVote s opt) opt2
      = (finalizeVote s opt, some VError.AlreadyVoted) := by
    unfold vote
    rw [if_neg (by rw [huser]; simp [hu]),
      if_neg (by rw [hset]; simp [ho]),
      if_pos (by rw [hset, hm, hvoted]; simp)]
  exact ⟨hmain, by rw [hmain]⟩

/-- C2 witness: in the live election `demoSt`, "u" votes for "Option A"
successfully; the repeat attempt (for "Option B") fails with AlreadyVoted
and leaves the tally unchanged. -/
theorem vote_idempotent_witness :
    vote (finalizeVote demoSt "Option A") "Option B"
      = (finalizeVote demoSt "Option A", some VError.AlreadyVoted)
    ∧ (vote (finalizeVote demoSt "Option A") "Option B").1.votes
      = (finalizeVote demoSt "Option A").votes :=
  vote_idempotent demoSt "Option A" (finalizeVote demoSt "Option A")
    (by decide) (by decide) (by decide) "Option B"

/-- C3: from any state satisfying the invariant "the set of Tally keys
equals the current Option set", every sequence of addOption/removeOption
calls preserves the invariant (hence it holds after every call of the
sequence); moreover a non-duplicate, nonempty addOption inserts a Tally
entry for the new option and removeOption deletes the removed option's
Tally entry. -/
theorem option_tally_invariant (s : St) (ops : List OptionOp)
    (hinv : tallyOptionInv s = true) :
    tallyOptionInv (applyOptionOps s ops) = true
    ∧ (∀ name, name ≠ "" → s.options.contains name = false →
        (lookup (addOption s name).1.votes name).isSome = true)
    ∧ (∀ name, lookup (removeOption s name).votes name = none) := by
  refine ⟨applyOptionOps_preserves_inv ops s hinv, ?_,
    fun name => lookup_filter_fst_self _ _⟩
  intro name h0 h1
  show (lookup (addOption s name).1.votes name).isSome = true
  unfold addOption
  rw [if_neg h0, if_neg (by rw [h1]; simp)]
  show (lookup (setEntry s.votes name ((lookup s.votes name).getD 0)) name).isSome
    = true
  rw [lookup_setEntry_self]
  rfl

/-- C3 witness: the invariant holds in `demoSt` and is preserved across the
concrete add/remove/add sequence `demoOptionOps`. -/
theorem option_tally_invariant_witness :
    tallyOptionInv (applyOptionOps demoSt demoOptionOps) = true
    ∧ (∀ name, name ≠ "" → demoSt.options.contains name = false →
        (lookup (addOption demoSt name).1.votes name).isSome = true)
    ∧ (∀ name, lookup (removeOption demoSt name).votes name = none) :=
  option_tally_invariant demoSt demoOptionOps (by decide)

/-- C4 counterexample: starting from `demoSt` (all tallies zero, as right
after a resetVotes), one successful castVote for "Option A" followed by
removeOption "Option A" leaves the tally sum at 0 while the number of
successful castVote calls since the reset is 1 - refuting the claim that
the sum always equals the successful-vote count and is preserved by
removals. -/
theorem tally_sum_cex :
    successCount demoSt demoOps = 1
    ∧ tallySum demoSt = 0
    ∧ tallySum (applyOps demoSt demoOps) = 0
    ∧ AdminOp.reset ∉ demoOps
    ∧ tallySum (applyOps demoSt demoOps) ≠ successCount demoSt demoOps := by decide

/-- C4 (amended): after a resetVotes the tally sum is zero, and along any
subsequent trace of castVote / addOption / removeOption operations (no
further resets) the tally sum plus the counts discarded by option removals
equals the number of successful castVote calls since that reset; so the sum
itself equals the successful-vote count minus exactly what removals
discarded, rather than being preserved by removals. -/
theorem tally_sum_accounting (s : St) (ops : List AdminOp)
    (hnr : AdminOp.reset ∉ ops) :
    tallySum (resetVotes s) = 0
    ∧ tallySum (applyOps (resetVotes s) ops) + discardedCount (resetVotes s) ops
        = successCount (resetVotes s) ops := by
  have h0 : tallySum (resetVotes s) = 0 := by
    show ((s.votes.map (fun p => (p.1, 0))).map (fun p => p.2)).sum = 0
    apply List.sum_eq_zero
    intro x hx
    simp only [List.map_map, List.mem_map] at hx
    obtain ⟨a, -, rfl⟩ := hx
    rfl
  refine ⟨h0, ?_⟩
  have h := tally_sum_trace ops (resetVotes s) hnr
  rw [h0] at h
  simpa using h

/-- C4 witness: the accounting identity on the concrete trace `demoOps`
from `demoSt` after a reset. -/
theorem tally_sum_accounting_witness :
    tallySum (resetVotes demoSt) = 0
    ∧ tallySum (applyOps (resetVotes demoSt) demoOps)
        + discardedCount (resetVotes demoSt) demoOps
      = successCount (resetVotes demoSt) demoOps :=
  tally_sum_accounting demoSt demoOps (by decide)

/-- C7 counterexample: "bob" is already registered (with an empty stored
password, producible by importing a snapshot); registering "bob" again does
not fail with DuplicateUsername - it succeeds and silently overwrites the
account - because the duplicate check `if (state.users[user])` tests the
stored password's truthiness, not the entry's existence. -/
theorem register_duplicate_cex :
    lookup emptyPwSt.users "bob" = some ""
    ∧ (register emptyPwSt "bob" "strongpass" (some [])).2 = none
    ∧ lookup (register emptyPwSt "bob" "strongpass" (some [])).1.users "bob"
        = some "strongpass" := by decide

/-- C7 (amended): registration fails with InvalidUsername when the username
is shorter than 3 characters, with WeakPassword when the password is shorter
than 6 (checked before the character-pattern), with InvalidUsername when the
username does not match [A-Za-z0-9_]+, with DuplicateUsername when the
username is registered with a truthy (nonempty) stored password, and the
registration scan fails with DuplicateBiometric when the scanned embedding
lies at Euclidean distance below 0.55 from an already-enrolled one (distance
0.1 rejected, distance 0.9 accepted); every failing path returns the state
unchanged, and the success path stores password, enrollment flag, descriptor
and logs the user in. -/
theorem register_checks (s : St) (u p : String) (d : List ℚ) :
    (u.length < 3 → register s u p (some d) = (s, some VError.InvalidUsername))
    ∧ (¬u.length < 3 → p.length < 6 →
        register s u p (some d) = (s, some VError.WeakPassword))
    ∧ (¬u.length < 3 → ¬p.length < 6 → usernamePatternOk u = false →
        register s u p (some d) = (s, some VError.InvalidUsername))
    ∧ (¬u.length < 3 → ¬p.length < 6 → usernamePatternOk u = true →
        truthyStr (lookup s.users u) = true →
        register s u p (some d) = (s, some VError.DuplicateUsername))
    ∧ (¬u.length < 3 → ¬p.length < 6 → usernamePatternOk u = true →
        truthyStr (lookup s.users u) = false →
        (register s u p (some d)).2 = none
        ∧ lookup (register s u p (some d)).1.users u = some p
        ∧ lookup (register s u p (some d)).1.faceDescriptors u = some d
        ∧ lookup (register s u p (some d)).1.faceEnrollments u = some true
        ∧ (register s u p (some d)).1.user = some u)
    ∧ (isDuplicateDescriptor s d = true →
        startRegistrationScan s d = some VError.DuplicateBiometric)
    ∧ (isDuplicateDescriptor s d = false → startRegistrationScan s d = none)
    ∧ register s u p none = (s, some VError.NoFaceScan)
    ∧ startRegistrationScan enrolledSt [1/10] = some VError.DuplicateBiometric
    ∧ startRegistrationScan enrolledSt [9/10] = none := by
  refine ⟨?_, ?_, ?_, ?_, ?_, ?_, ?_, rfl, ?_, ?_⟩
  · intro h1
    show (if u.length < 3 then (s, some VError.InvalidUsername) else _) = _
    rw [if_pos h1]
  · intro h1 h2
    show (if u.length < 3 then _ else if p.length < 6 then
      (s, some VError.WeakPassword) else _) = _
    rw [if_neg h1, if_pos h2]
  · intro h1 h2 h3
    show (if u.length < 3 then _ else if p.length < 6 then _
      else if usernamePatternOk u = false then (s, some VError.InvalidUsername)
      else _) = _
    rw [if_neg h1, if_neg h2, if_pos h3]
  · intro h1 h2 h3 h4
    show (if u.length < 3 then _ else if p.length < 6 then _
      else if usernamePatternOk u = false then _
      else if truthyStr (lookup s.users u) then (s, some VError.DuplicateUsername)
      else _) = _
    rw [if_neg h1, if_neg h2, if_neg (by rw [h3]; simp), if_pos h4]
  · intro h1 h2 h3 h4
    have hred : register s u p (some d)
        = ({ s with
              users := setEntry s.users u p
              faceEnrollments := setEntry s.faceEnrollments u true
              faceDescriptors := setEntry s.faceDescriptors u d
              user := some u }, none) := by
      show (if u.length < 3 then _ else if p.length < 6 then _
        else if usernamePatternOk u = false then _
        else if truthyStr (lookup s.users u) then _
        else _) = _
      rw [if_neg h1, if_neg h2, if_neg (by rw [h3]; simp), if_neg (by rw [h4]; simp)]
    rw [hred]
    exact ⟨rfl, lookup_setEntry_self _ _ _, lookup_setEntry_self _ _ _,
      lookup_setEntry_self _ _ _, rfl⟩
  · intro h
    show (if isDuplicateDescriptor s d then some VError.DuplicateBiometric
      else none) = _
    rw [if_pos h]
  · intro h
    show (if isDuplicateDescriptor s d then some VError.DuplicateBiometric
      else none) = none
    rw [h]
    simp
  · have hd : isDuplicateDescriptor enrolledSt [1/10] = true := by
      show List.any [("alice", [(0 : ℚ)])]
        (fun q => decide (distSq [1/10] q.2 < threshold * threshold)) = true
      simp only [List.any_cons, List.any_nil, Bool.or_false, decide_eq_true_eq]
      show distSq [1/10] [0] < threshold * threshold
      norm_num [distSq, threshold]
    show (if isDuplicateDescriptor enrolledSt [1/10]
      then some VError.DuplicateBiometric else none) = _
    rw [hd]
    simp
  · have hd : isDuplicateDescriptor enrolledSt [9/10] = false := by
      show List.any [("alice", [(0 : ℚ)])]
        (fun q => decide (distSq [9/10] q.2 < threshold * threshold)) = false
      simp only [List.any_cons, List.any_nil, Bool.or_false]
      rw [decide_eq_false_iff_not]
      show ¬distSq [9/10] [0] < threshold * threshold
      norm_num [distSq, threshold]
    show (if isDuplicateDescriptor enrolledSt [9/10]
      then some VError.DuplicateBiometric else none) = none
    rw [hd]
    simp

/-- C8 counterexample: "bob" is a registered identity whose stored password
is the empty string (producible through import); authenticating with
exactly that password fails with InvalidCredentials even though the stored
password is character-for-character equal to the supplied one, because the
code first tests the stored password's truthiness. -/
theorem login_exact_match_cex :
    lookup emptyPwSt.users "bob" = some ""
    ∧ (login emptyPwSt "bob" "").2 = some VError.InvalidCredentials := by decide

/-- C8 (amended): authenticate succeeds if and only if a registered identity
with exactly that username exists and its stored password is nonempty and
exactly equal to the supplied password (an account whose stored password is
the empty string - importable only - can never authenticate); in every
other case it fails with InvalidCredentials leaving the state unchanged,
and success only sets the session user. -/
theorem login_exact_match (s : St) (u p : String) :
    ((login s u p).2 = none ↔ lookup s.users u = some p ∧ p ≠ "")
    ∧ ((login s u p).2 = none → (login s u p).1 = { s with user := some u })
    ∧ ((login s u p).2 ≠ none → login s u p = (s, some VError.InvalidCredentials)) := by
  cases hl : lookup s.users u with
  | none =>
      have hlogin : login s u p = (s, some VError.InvalidCredentials) := by
        unfold login
        rw [hl]
      rw [hlogin]
      exact ⟨by simp [hl], fun h => by simp at h, fun _ => rfl⟩
  | some stored =>
      by_cases hc : (stored ≠ "" && stored == p) = true
      · have hlogin : login s u p = ({ s with user := some u }, none) := by
          unfold login
          rw [hl]
          show (if (stored ≠ "" && stored == p) = true then
              ({ s with user := some u }, none)
            else (s, some VError.InvalidCredentials)) = _
          rw [if_pos hc]
        rw [Bool.and_eq_true, decide_eq_true_eq, beq_iff_eq] at hc
        obtain ⟨hs0, rfl⟩ := hc
        rw [hlogin]
        exact ⟨by simp [hl, hs0], fun _ => rfl, fun h => by simp at h⟩
      · have hlogin : login s u p = (s, some VError.InvalidCredentials) := by
          unfold login
          rw [hl]
          show (if (stored ≠ "" && stored == p) = true then
              ({ s with user := some u }, none)
            else (s, some VError.InvalidCredentials)) = _
          rw [if_neg hc]
        rw [Bool.and_eq_true, decide_eq_true_eq, beq_iff_eq] at hc
        rw [hlogin]
        refine ⟨?_, fun h => by simp at h, fun _ => rfl⟩
        constructor
        · intro h
          simp at h
        · rintro ⟨hsp, hp⟩
          obtain rfl : stored = p := Option.some.inj hsp
          exact absurd ⟨hp, rfl⟩ hc

/-- C9 counterexample: with an orphan tally entry ("X", 5) and "X" not a
current option (producible by importing votes without options), addOption
"X" succeeds but the tally entry for "X" keeps its count 5 instead of the
claimed zero; additionally an empty name is silently ignored rather than
appended. -/
theorem add_option_zero_cex :
    orphanTallySt.options.contains "X" = false
    ∧ (addOption orphanTallySt "X").2 = none
    ∧ lookup (addOption orphanTallySt "X").1.votes "X" = some 5
    ∧ ¬lookup (addOption orphanTallySt "X").1.votes "X" = some 0
    ∧ addOption baseSt "" = (baseSt, none)
    ∧ (addOption baseSt "").1.options = [] := by decide

/-- C9 (amended): addOption fails with DuplicateOption when the (nonempty)
name is already in the Option set, leaving all state unchanged; an empty
name is silently ignored (no error, no append); otherwise the name is
appended to the end of the Option set and a zero Tally entry is created
only when no Tally entry for the name exists - a pre-existing count is
kept - while every other piece of state is unchanged. -/
theorem add_option_cases (s : St) (name : String) :
    (name ≠ "" → s.options.contains name = true →
      addOption s name = (s, some VError.DuplicateOption))
    ∧ addOption s "" = (s, none)
    ∧ (name ≠ "" → s.options.contains name = false →
        (addOption s name).2 = none
        ∧ (addOption s name).1.options = s.options ++ [name]
        ∧ lookup (addOption s name).1.votes name
            = some ((lookup s.votes name).getD 0)
        ∧ (lookup s.votes name = none →
            lookup (addOption s name).1.votes name = some 0)
        ∧ (∀ k, k ≠ name → lookup (addOption s name).1.votes k = lookup s.votes k)
        ∧ (addOption s name).1.userVotes = s.userVotes
        ∧ (addOption s name).1.users = s.users
        ∧ (addOption s name).1.settings = s.settings) := by
  refine ⟨?_, by simp [addOption], ?_⟩
  · intro hne h
    unfold addOption
    rw [if_neg hne, if_pos h]
  · intro hne h
    have hred : addOption s name
        = ({ s with
              options := s.options ++ [name]
              votes := setEntry s.votes name ((lookup s.votes name).getD 0) },
           none) := by
      unfold addOption
      rw [if_neg hne, if_neg (by rw [h]; simp)]
    rw [hred]
    refine ⟨rfl, rfl, lookup_setEntry_self _ _ _, ?_, ?_, rfl, rfl, rfl⟩
    · intro h0
      show lookup (setEntry s.votes name ((lookup s.votes name).getD 0)) name
        = some 0
      rw [h0]
      simpa using lookup_setEntry_self s.votes name ((none : Option Nat).getD 0)
    · intro k hk
      exact lookup_setEntry_ne s.votes name k _ hk
